import Mathlib

/-!
Verification of the firebase-rest-firestore client library.

This file gives a shallow embedding, in Lean 4, of the pure computational
core of the library, translated from the TypeScript sources:

  src/utils/converter.ts  (value codec)
  src/utils/path.ts       (getDocumentId)
  src/client.ts           (doc path parity, update merge, query compiler,
                           HTTP status handling, reference-graph where/orderBy
                           chaining, DocumentSnapshot)

Modelling conventions:
  - A JavaScript runtime value is the inductive type JSValue.  A JS number is
    modelled as a rational: every finite IEEE double denotes a unique rational
    and none of the modelled code paths perform float arithmetic on numbers
    (encoding and decoding are the identity on the numeric value), so the
    rational value is a faithful representation.  Number.isInteger holds of a
    finite double exactly when its rational value has denominator 1, and
    Number.isSafeInteger additionally bounds its magnitude by 2^53 - 1.
  - A Date is identified with its instant (integer milliseconds since epoch).
    Date.prototype.toISOString is injective on instants and new Date(iso)
    recovers the instant exactly (both sides carry millisecond precision), so
    the wire timestampValue carries the denoted instant directly.
  - A JS object is an association list of (key, value) pairs in insertion
    order, without duplicate keys (a JS object cannot hold duplicate keys).
    Property write obj[k] = v updates the existing entry in place keeping its
    position, else appends; the object spread merge applies the right operand
    entries over the left in order.
  - Strings use the Lean String type; s.split(sep) with a one-character
    separator and s.includes(needle) are modelled by structural functions on
    the underlying character list, matching the JS semantics.
-/

namespace Firestore

/-- A JavaScript runtime value as used by the library: strings, (finite)
numbers, booleans, null, undefined, Date instances, arrays and plain
objects. -/
inductive JSValue where
  | vStr : String → JSValue
  | vNum : ℚ → JSValue
  | vBool : Bool → JSValue
  | vNull : JSValue
  | vUndef : JSValue
  | vDate : Int → JSValue
  | vArr : List JSValue → JSValue
  | vObj : List (String × JSValue) → JSValue

/-- A JS object: association list of fields in insertion order. -/
abbrev JSObj := List (String × JSValue)

/-- Number.isInteger on a finite double: its rational value is a whole
number. -/
def jsIsInteger (q : ℚ) : Bool := q.den == 1

/-- Number.isSafeInteger on a finite double: a whole number of magnitude at
most Number.MAX_SAFE_INTEGER = 2^53 - 1. -/
def jsIsSafeInteger (q : ℚ) : Bool := q.den == 1 && q.num.natAbs ≤ 9007199254740991

/-- The wire tagged-union value (types.ts FirestoreFieldValue).  The
timestampValue carries the instant denoted by its ISO-8601 string (see the
header comment); integerValue and doubleValue carry the raw JS number that
the converter stores in them. -/
inductive FirestoreFieldValue where
  | stringValue : String → FirestoreFieldValue
  | integerValue : ℚ → FirestoreFieldValue
  | doubleValue : ℚ → FirestoreFieldValue
  | booleanValue : Bool → FirestoreFieldValue
  | nullValue : FirestoreFieldValue
  | timestampValue : Int → FirestoreFieldValue
  | mapValue : List (String × FirestoreFieldValue) → FirestoreFieldValue
  | arrayValue : List FirestoreFieldValue → FirestoreFieldValue

/-- A wire document as returned by the store (types.ts FirestoreResponse):
a resource name plus optional fields. -/
structure FirestoreResponse where
  name : String
  fields : Option (List (String × FirestoreFieldValue)) := none

mutual
/-- converter.ts convertToFirestoreValue.  Branch order in the source is
Date, string, number, boolean, null-or-undefined, array, object; the
constructors here are disjoint so each case maps directly.  The final
String(value) fallback of the source is unreachable for the runtime values
representable by JSValue. -/
def convertToFirestoreValue : JSValue → FirestoreFieldValue
  | .vDate ms => .timestampValue ms
  | .vStr s => .stringValue s
  | .vNum q => if jsIsInteger q then .integerValue q else .doubleValue q
  | .vBool b => .booleanValue b
  | .vNull => .nullValue
  | .vUndef => .nullValue
  | .vArr items => .arrayValue (convertToFirestoreValueList items)
  | .vObj fields => .mapValue (convertToFirestoreValueFields fields)

/-- value.map(item => convertToFirestoreValue(item)) over an array. -/
def convertToFirestoreValueList : List JSValue → List FirestoreFieldValue
  | [] => []
  | v :: rest => convertToFirestoreValue v :: convertToFirestoreValueList rest

/-- Object.entries(value).reduce((acc, [key, val]) => ({...acc, [key]:
convertToFirestoreValue(val)}), {}): for an object without duplicate keys
this builds the image entry list in order. -/
def convertToFirestoreValueFields :
    List (String × JSValue) → List (String × FirestoreFieldValue)
  | [] => []
  | (k, v) :: rest => (k, convertToFirestoreValue v) :: convertToFirestoreValueFields rest
end

mutual
/-- converter.ts convertFromFirestoreValue.  The source tests the tags with
the in operator in order; the constructors are disjoint.  Number(x) applied
to the number stored in integerValue is the identity.  The encoder always
populates mapValue.fields and arrayValue.values, which this type makes
structural. -/
def convertFromFirestoreValue : FirestoreFieldValue → JSValue
  | .stringValue s => .vStr s
  | .integerValue q => .vNum q
  | .doubleValue q => .vNum q
  | .booleanValue b => .vBool b
  | .nullValue => .vNull
  | .timestampValue ms => .vDate ms
  | .mapValue fields => .vObj (convertFromFirestoreValueFields fields)
  | .arrayValue values => .vArr (convertFromFirestoreValueList values)

/-- firestoreValue.arrayValue.values.map(convertFromFirestoreValue). -/
def convertFromFirestoreValueList : List FirestoreFieldValue → List JSValue
  | [] => []
  | v :: rest => convertFromFirestoreValue v :: convertFromFirestoreValueList rest

/-- The reduce over Object.entries(mapValue.fields) of the source. -/
def convertFromFirestoreValueFields :
    List (String × FirestoreFieldValue) → List (String × JSValue)
  | [] => []
  | (k, v) :: rest => (k, convertFromFirestoreValue v) :: convertFromFirestoreValueFields rest
end

mutual
/-- The value set of the round-trip claim: strings, numbers, booleans, null,
dates, arrays and nested plain objects of these — everything JSValue can
hold except the undefined value (which the encoder collapses to null). -/
def isPlainValue : JSValue → Bool
  | .vStr _ => true
  | .vNum _ => true
  | .vBool _ => true
  | .vNull => true
  | .vUndef => false
  | .vDate _ => true
  | .vArr items => isPlainValueList items
  | .vObj fields => isPlainValueFields fields

/-- Every element of the array lies in the round-trip value set. -/
def isPlainValueList : List JSValue → Bool
  | [] => true
  | v :: rest => isPlainValue v && isPlainValueList rest

/-- Every field value of the object lies in the round-trip value set. -/
def isPlainValueFields : List (String × JSValue) → Bool
  | [] => true
  | (_, v) :: rest => isPlainValue v && isPlainValueFields rest
end

mutual
/-- Decoding inverts encoding on every value of the round-trip set. -/
theorem roundtripValue : ∀ v, isPlainValue v = true →
    convertFromFirestoreValue (convertToFirestoreValue v) = v
  | .vStr _, _ => rfl
  | .vNum q, _ => by
      unfold convertToFirestoreValue
      by_cases h : jsIsInteger q = true
      · simp [h, convertFromFirestoreValue]
      · simp [h, convertFromFirestoreValue]
  | .vBool _, _ => rfl
  | .vNull, _ => rfl
  | .vUndef, h => by simp [isPlainValue] at h
  | .vDate _, _ => rfl
  | .vArr items, h => by
      unfold convertToFirestoreValue convertFromFirestoreValue
      rw [roundtripList items (by simpa [isPlainValue] using h)]
  | .vObj fields, h => by
      unfold convertToFirestoreValue convertFromFirestoreValue
      rw [roundtripFields fields (by simpa [isPlainValue] using h)]

/-- List version of the round-trip lemma. -/
theorem roundtripList : ∀ l, isPlainValueList l = true →
    convertFromFirestoreValueList (convertToFirestoreValueList l) = l
  | [], _ => rfl
  | v :: rest, h => by
      unfold convertToFirestoreValueList convertFromFirestoreValueList
      rw [roundtripValue v, roundtripList rest] <;> simp_all [isPlainValueList]

/-- Field-list version of the round-trip lemma. -/
theorem roundtripFields : ∀ l, isPlainValueFields l = true →
    convertFromFirestoreValueFields (convertToFirestoreValueFields l) = l
  | [], _ => rfl
  | (k, v) :: rest, h => by
      unfold convertToFirestoreValueFields convertFromFirestoreValueFields
      rw [roundtripValue v, roundtripFields rest] <;> simp_all [isPlainValueFields]
end

/-- C1: Codec round-trip: for every native value drawn from the set
{string, safe integer, non-integer number, boolean, null, date, array of any
of these, nested plain object of any of these}, decoding the encoding of the
value yields a value deep-equal to the original; a date is carried as its
instant, so equality of the model values is exactly deep equality with dates
compared by instant. -/
theorem c1_codec_roundtrip (v : JSValue) (h : isPlainValue v = true) :
    convertFromFirestoreValue (convertToFirestoreValue v) = v :=
  roundtripValue v h

/-- The JS number 100.5, i.e. the rational 201/2. -/
def numHalf : ℚ := Rat.mk' 201 2 (by norm_num) (by norm_num)

/-- The JS number 2^53 = 9007199254740992: an exactly representable double
that passes Number.isInteger but fails Number.isSafeInteger. -/
def numTwoPow53 : ℚ := (9007199254740992 : ℚ)

/-- Witness for C1 at a concrete nested value containing a string, an
integer, a non-integer number, a boolean, null, a date, an array and a
nested object. -/
theorem c1_codec_roundtrip_witness :
    isPlainValue (.vObj [("s", .vStr "x"), ("n", .vNum 100), ("d", .vNum numHalf),
      ("b", .vBool true), ("z", .vNull), ("t", .vDate 1700000000000),
      ("a", .vArr [.vNum 100, .vStr "y"]), ("o", .vObj [("k", .vStr "v")])]) = true ∧
    convertFromFirestoreValue (convertToFirestoreValue
      (.vObj [("s", .vStr "x"), ("n", .vNum 100), ("d", .vNum numHalf),
        ("b", .vBool true), ("z", .vNull), ("t", .vDate 1700000000000),
        ("a", .vArr [.vNum 100, .vStr "y"]), ("o", .vObj [("k", .vStr "v")])])) =
      .vObj [("s", .vStr "x"), ("n", .vNum 100), ("d", .vNum numHalf),
        ("b", .vBool true), ("z", .vNull), ("t", .vDate 1700000000000),
        ("a", .vArr [.vNum 100, .vStr "y"]), ("o", .vObj [("k", .vStr "v")])] :=
  ⟨rfl, c1_codec_roundtrip _ rfl⟩

/-- C7 counterexample: the claim says the integer-tagged variant is produced
exactly for safe whole numbers, but the code tests Number.isInteger, not
Number.isSafeInteger: the whole number 2^53 is not a safe integer yet is
encoded integer-tagged, not double-tagged. -/
theorem c7_counterexample :
    convertToFirestoreValue (.vNum numTwoPow53) = .integerValue numTwoPow53 ∧
    jsIsSafeInteger numTwoPow53 = false ∧
    convertToFirestoreValue (.vNum numTwoPow53) ≠ .doubleValue numTwoPow53 := by
  refine ⟨rfl, by decide, ?_⟩
  intro h
  rw [show convertToFirestoreValue (.vNum numTwoPow53) = .integerValue numTwoPow53 from rfl] at h
  exact absurd h (by simp)

/-- C7 amended: encoding a number yields the integer-tagged variant exactly
when the number is a whole number (it passes Number.isInteger, with no
safe-integer magnitude bound), and the double-tagged variant otherwise; in
particular 100 encodes integer-tagged and 100.5 encodes double-tagged. -/
theorem c7_integer_double_boundary (q : ℚ) :
    (jsIsInteger q = true → convertToFirestoreValue (.vNum q) = .integerValue q) ∧
    (jsIsInteger q = false → convertToFirestoreValue (.vNum q) = .doubleValue q) ∧
    convertToFirestoreValue (.vNum 100) = .integerValue 100 ∧
    convertToFirestoreValue (.vNum numHalf) = .doubleValue numHalf := by
  refine ⟨fun h => by simp [convertToFirestoreValue, h], fun h => by simp [convertToFirestoreValue, h], rfl, rfl⟩

/-- Witness for C7 amended at the whole number 100 and at 100.5. -/
theorem c7_integer_double_boundary_witness :
    jsIsInteger 100 = true ∧ convertToFirestoreValue (.vNum 100) = .integerValue 100 ∧
    jsIsInteger numHalf = false ∧ convertToFirestoreValue (.vNum numHalf) = .doubleValue numHalf :=
  ⟨rfl, (c7_integer_double_boundary 100).1 rfl, rfl,
    (c7_integer_double_boundary numHalf).2.1 rfl⟩

/-! String utilities modelling the JS operations the sources use. -/

/-- JS String.prototype.split with a one-character separator, on character
lists: an empty input yields one empty segment, and every separator
occurrence starts a new segment. -/
def splitChars (sep : Char) : List Char → List (List Char)
  | [] => [[]]
  | c :: cs =>
    let r := splitChars sep cs
    if c = sep then [] :: r
    else
      match r with
      | h :: t => (c :: h) :: t
      | [] => [[c]]

/-- JS s.split(sep) for a one-character separator. -/
def jsSplit (s : String) (sep : Char) : List String :=
  (splitChars sep s.data).map (fun l => ⟨l⟩)

/-- JS Array.prototype.join with the "/" separator. -/
def joinSlash : List String → String
  | [] => ""
  | [s] => s
  | s :: rest => s ++ "/" ++ joinSlash rest

/-- splitChars never returns an empty list of segments. -/
theorem splitChars_ne_nil (sep : Char) : ∀ l, splitChars sep l ≠ []
  | [] => by simp [splitChars]
  | c :: cs => by
    unfold splitChars
    have h := splitChars_ne_nil sep cs
    by_cases hc : c = sep
    · simp [hc]
    · simp only [if_neg hc]
      match he : splitChars sep cs with
      | [] => exact absurd he h
      | x :: xs => simp

/-- Splitting a list with a separator occurrence in the middle splits each
side independently. -/
theorem splitChars_append (sep : Char) (xs ys : List Char) :
    splitChars sep (xs ++ sep :: ys) = splitChars sep xs ++ splitChars sep ys := by
  induction xs with
  | nil => simp [splitChars]
  | cons c cs ih =>
    simp only [List.cons_append, splitChars, List.append_eq]
    by_cases hc : c = sep
    · simp [hc, ih]
    · obtain ⟨x, xs', he⟩ : ∃ x xs', splitChars sep cs = x :: xs' := by
        cases h' : splitChars sep cs with
        | nil => exact absurd h' (splitChars_ne_nil sep cs)
        | cons a b => exact ⟨a, b, rfl⟩
      rw [ih, he]
      simp [hc]

/-- The default-valued last element of a list extended by one element is
that element. -/
theorem getLastD_append_single {α : Type} (l : List α) (x d : α) :
    (l ++ [x]).getLastD d = x := by
  induction l with
  | nil => rfl
  | cons a rest ih =>
    cases rest with
    | nil => rfl
    | cons b t => simpa using ih

/-- Taking all but one element is dropping the last element. -/
theorem take_length_sub_one {α : Type} (l : List α) :
    l.take (l.length - 1) = l.dropLast := by
  induction l with
  | nil => rfl
  | cons a rest ih =>
    cases rest with
    | nil => rfl
    | cons b t =>
      simp only [List.length_cons, List.dropLast_cons₂]
      simp only [Nat.add_sub_cancel, List.take_succ_cons]
      simpa using ih

/-- Splitting a separator-free list yields that list as the only segment. -/
theorem splitChars_of_not_contains (sep : Char) :
    ∀ l, l.contains sep = false → splitChars sep l = [l]
  | [], _ => rfl
  | c :: cs, h => by
    have hc : c ≠ sep := by
      intro he
      subst he
      simp [List.contains] at h
    have hcs : cs.contains sep = false := by
      simp [List.contains] at h ⊢
      exact h.2
    unfold splitChars
    simp only [if_neg hc, splitChars_of_not_contains sep cs hcs]

/-- path.ts getDocumentId: split the resource name on "/" and take the last
segment (the split array is never empty, so the JS index read is the last
element). -/
def getDocumentId (path : String) : String := (jsSplit path '/').getLastD ""

/-- The JS-level call getDocumentId(x) where x may also be the undefined
value (modelled as none): on undefined, the property access
undefined.split raises a TypeError; on a string it returns normally. -/
def getDocumentIdJS : Option String → Except String String
  | none => .error "TypeError: Cannot read properties of undefined (reading split)"
  | some p => .ok (getDocumentId p)

/-- C9 counterexample: the claim says getDocumentId returns the empty string
on an undefined input and never raises, but the code calls .split on its
argument unconditionally, so an undefined input raises a TypeError. -/
theorem c9_counterexample :
    getDocumentIdJS none =
      .error "TypeError: Cannot read properties of undefined (reading split)" ∧
    getDocumentIdJS none ≠ .ok "" := by
  refine ⟨rfl, ?_⟩
  intro h
  rw [show getDocumentIdJS none = .error "TypeError: Cannot read properties of undefined (reading split)" from rfl] at h
  exact absurd h (by simp)

/-- C9 amended: for every string input, getDocumentId returns the final
slash-delimited segment and never raises (the empty string yields the empty
string); an undefined input is outside the string-typed domain of the
function and raises a TypeError. -/
theorem c9_getDocumentId_total (s seg : String) (h : seg.data.contains '/' = false) :
    getDocumentId "" = "" ∧
    getDocumentId (s ++ "/" ++ seg) = seg ∧
    getDocumentIdJS (some s) = .ok (getDocumentId s) := by
  refine ⟨rfl, ?_, rfl⟩
  have hdata : (s ++ "/" ++ seg).data = s.data ++ '/' :: seg.data := by
    rw [String.data_append, String.data_append, List.append_assoc]
    rfl
  unfold getDocumentId jsSplit
  rw [hdata, splitChars_append, splitChars_of_not_contains '/' seg.data h,
    List.map_append]
  rw [show (List.map (fun l => (⟨l⟩ : String)) [seg.data]) = [seg] from rfl]
  rw [getLastD_append_single]

/-- Witness for C9 amended at the resource name
projects/p/databases/(default)/documents/todos/abc123. -/
theorem c9_getDocumentId_total_witness :
    ("abc123" : String).data.contains '/' = false ∧
    getDocumentId ("projects/p/databases/(default)/documents/todos" ++ "/" ++ "abc123") =
      "abc123" :=
  ⟨by decide,
    (c9_getDocumentId_total "projects/p/databases/(default)/documents/todos" "abc123"
      (by decide)).2.1⟩

/-- client.ts FirestoreClient.doc: split the path on "/"; an odd segment
count raises the malformed-path error before any network interaction, an
even count constructs the reference (collection path = all but the last
segment joined by "/", document id = last segment). -/
def doc (path : String) : Except String (String × String) :=
  let parts := jsSplit path '/'
  if parts.length % 2 ≠ 0 then
    .error "Invalid document path. Document path must point to a document, not a collection."
  else
    .ok (joinSlash (parts.take (parts.length - 1)), parts.getLastD "")

/-- C6: doc(path) raises a malformed-path error exactly when the number of
slash-separated segments is odd (it is a pure check, before any network
call), and otherwise constructs a DocumentReference whose collection path is
all but the last segment and whose id is the last segment. -/
theorem c6_doc_path_parity (path : String) :
    ((jsSplit path '/').length % 2 = 1 → ∃ msg, doc path = .error msg) ∧
    ((jsSplit path '/').length % 2 = 0 →
      doc path = .ok (joinSlash ((jsSplit path '/').dropLast),
        (jsSplit path '/').getLastD "")) := by
  constructor
  · intro h
    refine ⟨"Invalid document path. Document path must point to a document, not a collection.", ?_⟩
    simp only [doc]
    rw [if_pos (by omega)]
  · intro h
    simp only [doc]
    rw [if_neg (by omega), take_length_sub_one]

/-- Witness for C6: doc on the two-segment path a/b succeeds with collection
path a and id b, and doc on the one-segment path a raises. -/
theorem c6_doc_path_parity_witness :
    doc "a/b" = .ok ("a", "b") ∧ ∃ msg, doc "a" = .error msg :=
  ⟨by have h := (c6_doc_path_parity "a/b").2 (by decide); simpa using h,
    (c6_doc_path_parity "a").1 (by decide)⟩

/-! JS object primitives: property read, property write, spread merge. -/

/-- JS property read obj[k]: the value of the entry with the given key. -/
def jsGet {α : Type} : List (String × α) → String → Option α
  | [], _ => none
  | (k2, v) :: rest, k => if k2 == k then some v else jsGet rest k

/-- JS property write obj[k] = v: update the entry in place keeping its
position when the key is present, otherwise append the new entry. -/
def jsSet {α : Type} : List (String × α) → String → α → List (String × α)
  | [], k, v => [(k, v)]
  | (k2, v2) :: rest, k, v =>
    if k2 == k then (k, v) :: rest else (k2, v2) :: jsSet rest k v

/-- The JS object spread merge given right-operand entries over the left
operand, as in the expression writing every entry of b onto a copy of a. -/
def jsMerge {α : Type} (a b : List (String × α)) : List (String × α) :=
  b.foldl (fun acc p => jsSet acc p.1 p.2) a

/-- Reading the key just written yields the written value. -/
theorem jsGet_jsSet_self {α : Type} (o : List (String × α)) (k : String) (v : α) :
    jsGet (jsSet o k v) k = some v := by
  induction o with
  | nil => simp [jsGet, jsSet]
  | cons p rest ih =>
    obtain ⟨k2, v2⟩ := p
    by_cases h : k2 = k
    · simp [jsGet, jsSet, h]
    · simp [jsGet, jsSet, h, ih]

/-- Writing one key leaves the others unchanged. -/
theorem jsGet_jsSet_ne {α : Type} (o : List (String × α)) (k k2 : String) (v : α)
    (h : k2 ≠ k) : jsGet (jsSet o k v) k2 = jsGet o k2 := by
  induction o with
  | nil => simp [jsGet, jsSet, Ne.symm h]
  | cons p rest ih =>
    obtain ⟨k3, v3⟩ := p
    by_cases h3 : k3 = k
    · subst h3
      simp [jsGet, jsSet, Ne.symm h]
    · by_cases h2 : k3 = k2
      · simp [jsGet, jsSet, h3, h2, h]
      · simp [jsGet, jsSet, h3, h2, ih]

/-- Merging entries none of which carry the key leaves it unchanged. -/
theorem jsGet_jsMerge_of_not_mem {α : Type} (b a : List (String × α)) (k : String)
    (h : ∀ p ∈ b, p.1 ≠ k) : jsGet (jsMerge a b) k = jsGet a k := by
  induction b generalizing a with
  | nil => rfl
  | cons p rest ih =>
    have hp : p.1 ≠ k := h p (by simp)
    have hr : ∀ q ∈ rest, q.1 ≠ k := fun q hq => h q (by simp [hq])
    show jsGet (jsMerge (jsSet a p.1 p.2) rest) k = jsGet a k
    rw [ih (jsSet a p.1 p.2) hr, jsGet_jsSet_ne _ _ _ _ (Ne.symm hp)]

/-- Looking a key up in the image of a value map is the mapped lookup. -/
theorem jsGet_map_value {α β : Type} (f : α → β) :
    ∀ (l : List (String × α)) (k : String),
      jsGet (l.map (fun p => (p.1, f p.2))) k = (jsGet l k).map f
  | [], _ => rfl
  | (k2, v) :: rest, k => by
    by_cases h : k2 = k
    · simp [jsGet, h]
    · simp [jsGet, h, jsGet_map_value f rest k]

/-- The field-list encoder is the entrywise value map. -/
theorem convertToFirestoreValueFields_eq_map (l : JSObj) :
    convertToFirestoreValueFields l = l.map (fun p => (p.1, convertToFirestoreValue p.2)) := by
  induction l with
  | nil => rfl
  | cons p rest ih =>
    obtain ⟨k, v⟩ := p
    simp [convertToFirestoreValueFields, ih]

/-! The document-level codec (converter.ts). -/

/-- converter.ts convertToFirestoreDocument: the fields map of the wire
document, one encoded entry per input entry. -/
def convertToFirestoreDocument (data : JSObj) : List (String × FirestoreFieldValue) :=
  convertToFirestoreValueFields data

/-- converter.ts convertFromFirestoreDocument: decode every field and attach
the id taken from the trailing segment of the resource name; with no fields
at all the result carries only the id.  The spread-then-id object literal
overwrites an existing id field in place, which jsSet models. -/
def convertFromFirestoreDocument (docResp : FirestoreResponse) : JSObj :=
  match docResp.fields with
  | none => [("id", .vStr (getDocumentId docResp.name))]
  | some flds =>
    jsSet (convertFromFirestoreValueFields flds) "id" (.vStr (getDocumentId docResp.name))

/-! The HTTP layer of client.ts, as pure functions of the single response
each operation receives.  Each operation issues exactly one request and
never retries; the model makes the result a function of that one
response. -/

/-- One HTTP response: status code, status text and the raw body text. -/
structure HttpResponse where
  status : Nat
  statusText : String
  body : String

/-- The fetch Response.ok predicate: status in the 2xx range. -/
def responseOk (status : Nat) : Bool := 200 ≤ status && status ≤ 299

/-- The template fragment response.statusText || response.status: an empty
(falsy) status text falls back to the stringified numeric status. -/
def statusTextOrStatus (r : HttpResponse) : String :=
  if r.statusText = "" then toString r.status else r.statusText

/-- The error message template of add, get, update and delete. -/
def apiErrorMessage (r : HttpResponse) : String :=
  "Firestore API error: " ++ statusTextOrStatus r ++ " - " ++ r.body

/-- The error message template of query, which always uses the numeric
status. -/
def queryErrorMessage (r : HttpResponse) : String :=
  "Firestore API error: " ++ toString r.status ++ " - " ++ r.body

/-- FirestoreClient.add response handling: non-2xx raises the templated
error, otherwise the parsed body is decoded. -/
def addResult (r : HttpResponse) (parsed : FirestoreResponse) : Except String JSObj :=
  if !(responseOk r.status) then .error (apiErrorMessage r)
  else .ok (convertFromFirestoreDocument parsed)

/-- FirestoreClient.get response handling: status 404 is the valid null
result, any other non-2xx raises, a 2xx decodes the parsed body. -/
def getResult (r : HttpResponse) (parsed : FirestoreResponse) :
    Except String (Option JSObj) :=
  if r.status = 404 then .ok none
  else if !(responseOk r.status) then .error (apiErrorMessage r)
  else .ok (some (convertFromFirestoreDocument parsed))

/-- FirestoreClient.update final PATCH response handling. -/
def updateResponseResult (r : HttpResponse) (parsed : FirestoreResponse) :
    Except String JSObj :=
  if !(responseOk r.status) then .error (apiErrorMessage r)
  else .ok (convertFromFirestoreDocument parsed)

/-- FirestoreClient.delete response handling. -/
def deleteResult (r : HttpResponse) : Except String Bool :=
  if !(responseOk r.status) then .error (apiErrorMessage r) else .ok true

/-- FirestoreClient.query response handling: non-2xx raises with the numeric
status; a non-array body yields the empty result; result slots without a
document are discarded and the rest decoded. -/
def queryResult (r : HttpResponse)
    (results : Option (List (Option FirestoreResponse))) :
    Except String (List JSObj) :=
  if !(responseOk r.status) then .error (queryErrorMessage r)
  else
    match results with
    | none => .ok []
    | some items => .ok ((items.filterMap id).map convertFromFirestoreDocument)

/-- FirestoreClient.createWithId response handling: its error template
carries only the status text. -/
def createWithIdResult (r : HttpResponse) (parsed : FirestoreResponse) :
    Except String JSObj :=
  if !(responseOk r.status) then .error ("Firestore API error: " ++ r.statusText)
  else .ok (convertFromFirestoreDocument parsed)

/-- client.ts DocumentSnapshot: an id and the fetched data (null modelled as
none). -/
structure DocumentSnapshot where
  id : String
  snapData : Option JSObj

/-- DocumentSnapshot.exists: the underlying data is not null. -/
def DocumentSnapshot.existsFlag (s : DocumentSnapshot) : Bool := s.snapData.isSome

/-- DocumentSnapshot.data(): the data or undefined when it is null (a
non-null object is always truthy). -/
def DocumentSnapshot.dataFn (s : DocumentSnapshot) : Option JSObj :=
  match s.snapData with
  | some d => some d
  | none => none

/-- C4: when the remote store answers a get with HTTP 404 the client
returns null rather than raising; every other non-2xx status raises; a
DocumentSnapshot built from the null result has exists false and data()
absent. -/
theorem c4_not_found_semantics (r : HttpResponse) (parsed : FirestoreResponse)
    (docId : String) :
    (r.status = 404 → getResult r parsed = .ok none ∧
      (DocumentSnapshot.mk docId none).existsFlag = false ∧
      (DocumentSnapshot.mk docId none).dataFn = none) ∧
    (r.status ≠ 404 → responseOk r.status = false →
      ∃ msg, getResult r parsed = .error msg) := by
  constructor
  · intro h
    refine ⟨?_, rfl, rfl⟩
    simp [getResult, h]
  · intro h404 hok
    exact ⟨apiErrorMessage r, by simp [getResult, h404, hok]⟩

/-- Witness for C4 at a 404 response and at a 500 response. -/
theorem c4_not_found_semantics_witness :
    getResult ⟨404, "Not Found", ""⟩ ⟨"todos/x", none⟩ = .ok none ∧
    (DocumentSnapshot.mk "x" none).existsFlag = false ∧
    (DocumentSnapshot.mk "x" none).dataFn = none ∧
    (∃ msg, getResult ⟨500, "Internal Server Error", "boom"⟩ ⟨"todos/x", none⟩ = .error msg) :=
  ⟨((c4_not_found_semantics ⟨404, "Not Found", ""⟩ ⟨"todos/x", none⟩ "x").1 rfl).1,
    ((c4_not_found_semantics ⟨404, "Not Found", ""⟩ ⟨"todos/x", none⟩ "x").1 rfl).2.1,
    ((c4_not_found_semantics ⟨404, "Not Found", ""⟩ ⟨"todos/x", none⟩ "x").1 rfl).2.2,
    (c4_not_found_semantics ⟨500, "Internal Server Error", "boom"⟩ ⟨"todos/x", none⟩ "x").2
      (by decide) (by decide)⟩

/-! Substring machinery for the error-content claim. -/

/-- The first list is an initial run of the second. -/
def startsWithChars : List Char → List Char → Bool
  | [], _ => true
  | _ :: _, [] => false
  | a :: as, b :: bs => a == b && startsWithChars as bs

/-- The first list occurs contiguously inside the second. -/
def occursIn (needle hay : List Char) : Bool :=
  (List.range (hay.length + 1)).any (fun i => startsWithChars needle (hay.drop i))

/-- String form of the substring test. -/
def occursInStr (needle hay : String) : Bool := occursIn needle.data hay.data

/-- A list is an initial run of itself extended on the right. -/
theorem startsWithChars_append (m c : List Char) :
    startsWithChars m (m ++ c) = true := by
  induction m with
  | nil => rfl
  | cons a as ih => simp [startsWithChars, ih]

/-- A middle factor occurs inside the concatenation. -/
theorem occursIn_middle (a m c : List Char) : occursIn m (a ++ (m ++ c)) = true := by
  unfold occursIn
  rw [List.any_eq_true]
  refine ⟨a.length, ?_, ?_⟩
  · rw [List.mem_range]
    simp [List.length_append]
    omega
  · rw [List.drop_left]
    exact startsWithChars_append m c

/-- A middle string factor occurs inside the string concatenation. -/
theorem occursInStr_middle (x m y : String) : occursInStr m (x ++ m ++ y) = true := by
  unfold occursInStr
  rw [String.data_append, String.data_append, List.append_assoc]
  exact occursIn_middle x.data m.data y.data

/-- A suffix string occurs inside the string concatenation. -/
theorem occursInStr_suffix (x m : String) : occursInStr m (x ++ m) = true := by
  unfold occursInStr
  rw [String.data_append]
  have h := occursIn_middle x.data m.data []
  simpa using h

/-- C8 counterexample: the claim covers createWithId, but on a failing
response the createWithId error message carries only the status text: the
raw body text boom does not occur in it. -/
theorem c8_counterexample :
    createWithIdResult ⟨400, "Bad Request", "boom"⟩ ⟨"todos/x", none⟩ =
      .error "Firestore API error: Bad Request" ∧
    occursInStr "boom" "Firestore API error: Bad Request" = false :=
  ⟨rfl, by decide⟩

/-- C8 amended: on every non-2xx response, add, get (outside the documented
404 case), update, delete and query raise a single error whose message
carries both the status (or status text) and the raw response body text,
and no retry is performed (each operation is a function of its one
response); createWithId instead raises an error carrying only the status
text, without the body. -/
theorem c8_failure_policy (r : HttpResponse) (parsed : FirestoreResponse)
    (results : Option (List (Option FirestoreResponse)))
    (hok : responseOk r.status = false) :
    (∃ m, addResult r parsed = .error m ∧ occursInStr r.body m = true ∧
      occursInStr (statusTextOrStatus r) m = true) ∧
    (r.status ≠ 404 → ∃ m, getResult r parsed = .error m ∧
      occursInStr r.body m = true ∧ occursInStr (statusTextOrStatus r) m = true) ∧
    (∃ m, updateResponseResult r parsed = .error m ∧ occursInStr r.body m = true ∧
      occursInStr (statusTextOrStatus r) m = true) ∧
    (∃ m, deleteResult r = .error m ∧ occursInStr r.body m = true ∧
      occursInStr (statusTextOrStatus r) m = true) ∧
    (∃ m, queryResult r results = .error m ∧ occursInStr r.body m = true ∧
      occursInStr (toString r.status) m = true) ∧
    createWithIdResult r parsed = .error ("Firestore API error: " ++ r.statusText) := by
  have hbodyApi : occursInStr r.body (apiErrorMessage r) = true := by
    have h := occursInStr_suffix ("Firestore API error: " ++ statusTextOrStatus r ++ " - ") r.body
    simpa [apiErrorMessage, String.append_assoc] using h
  have hstApi : occursInStr (statusTextOrStatus r) (apiErrorMessage r) = true := by
    have h := occursInStr_middle "Firestore API error: " (statusTextOrStatus r) (" - " ++ r.body)
    simpa [apiErrorMessage, String.append_assoc] using h
  have hbodyQ : occursInStr r.body (queryErrorMessage r) = true := by
    have h := occursInStr_suffix ("Firestore API error: " ++ toString r.status ++ " - ") r.body
    simpa [queryErrorMessage, String.append_assoc] using h
  have hstQ : occursInStr (toString r.status) (queryErrorMessage r) = true := by
    have h := occursInStr_middle "Firestore API error: " (toString r.status) (" - " ++ r.body)
    simpa [queryErrorMessage, String.append_assoc] using h
  refine ⟨⟨apiErrorMessage r, by simp [addResult, hok], hbodyApi, hstApi⟩,
    fun h404 => ⟨apiErrorMessage r, by simp [getResult, h404, hok], hbodyApi, hstApi⟩,
    ⟨apiErrorMessage r, by simp [updateResponseResult, hok], hbodyApi, hstApi⟩,
    ⟨apiErrorMessage r, by simp [deleteResult, hok], hbodyApi, hstApi⟩,
    ⟨queryErrorMessage r, by simp [queryResult, hok], hbodyQ, hstQ⟩,
    by simp [createWithIdResult, hok]⟩

/-- Witness for C8 amended at a 400 response with status text Bad Request
and body boom. -/
theorem c8_failure_policy_witness :
    responseOk 400 = false ∧
    (∃ m, addResult ⟨400, "Bad Request", "boom"⟩ ⟨"todos/x", none⟩ = .error m ∧
      occursInStr "boom" m = true ∧
      occursInStr (statusTextOrStatus ⟨400, "Bad Request", "boom"⟩) m = true) :=
  ⟨by decide,
    (c8_failure_policy ⟨400, "Bad Request", "boom"⟩ ⟨"todos/x", none⟩ none (by decide)).1⟩

/-! The read-modify-write merge of FirestoreClient.update (client.ts). -/

/-- JS key.includes with the one-character needle dot. -/
def hasDot (k : String) : Bool := k.data.contains '.'

/-- The dotted-key navigation loop of update: walk all but the last path
part from the top of the object; a part whose current value is a plain
object is entered, a missing or falsy or non-object value is replaced by a
fresh empty object; the last part is written at the reached object.  A part
holding an array or a Date is truthy and of object type, so the source
navigates into that in-place mutable object; such a write has no
representation in the tree-valued model, so the model returns none there
and results are only claimed when navigation stays on plain objects. -/
def setDotPath (o : JSObj) : List String → JSValue → Option JSObj
  | [], _ => none
  | [k], v => some (jsSet o k v)
  | k :: k2 :: rest, v =>
    match jsGet o k with
    | some (.vObj m) =>
      (setDotPath m (k2 :: rest) v).map (fun m2 => jsSet o k (.vObj m2))
    | some (.vArr _) => none
    | some (.vDate _) => none
    | _ => (setDotPath ([] : JSObj) (k2 :: rest) v).map (fun m2 => jsSet o k (.vObj m2))

/-- The merge performed by update when an existing document was found.
Faithful to the source control flow: the dotted keys are collected from the
key set; with at least one dotted key, the non-dotted keys are written
first onto the spread copy of the existing document and then each dotted
key is applied as a nested path (the source also deletes the dotted keys
from a shallow copy updateData of the update payload, which is never read
again); with no dotted key, a plain spread merge of the payload over the
existing document.  Iterating Object.keys of the payload and indexing into
it is folding over its entry list, as the payload object has no duplicate
keys. -/
def mergeUpdate (existingDoc data : JSObj) : Option JSObj :=
  let dotKeys := (data.map Prod.fst).filter (fun k => hasDot k)
  if dotKeys.length > 0 then
    let afterPlain := (data.filter (fun p => !(hasDot p.1))).foldl
      (fun acc p => jsSet acc p.1 p.2) existingDoc
    (data.filter (fun p => hasDot p.1)).foldl
      (fun acc p => acc.bind (fun o => setDotPath o (jsSplit p.1 '.') p.2))
      (some afterPlain)
  else some (jsMerge existingDoc data)

/-- The document payload update sends: the merge result when the preceding
read found a document, the supplied data as-is when it did not. -/
def updateMergedData : Option JSObj → JSObj → Option JSObj
  | some existingDoc, data => mergeUpdate existingDoc data
  | none, data => some data

/-- Modelled from the claim sentence, for comparison with the source: each
dot-delimited key applied as a nested path inside the existing document and
removed from the flat key set BEFORE the remaining non-dotted keys are
shallow-merged. -/
def mergeUpdateSpecOrdered (existingDoc data : JSObj) : Option JSObj :=
  ((data.filter (fun p => hasDot p.1)).foldl
      (fun acc p => acc.bind (fun o => setDotPath o (jsSplit p.1 '.') p.2))
      (some existingDoc)).map
    (fun o => jsMerge o (data.filter (fun p => !(hasDot p.1))))

/-- The amended description of the merge: shallow-merge the non-dotted keys
over the existing document first, then apply each dotted key as a nested
path (so a dotted write wins over a plain key addressing the same top-level
field). -/
def mergeUpdateAmended (existingDoc data : JSObj) : Option JSObj :=
  (data.filter (fun p => hasDot p.1)).foldl
    (fun acc p => acc.bind (fun o => setDotPath o (jsSplit p.1 '.') p.2))
    (some (jsMerge existingDoc (data.filter (fun p => !(hasDot p.1)))))

/-- C5 counterexample: on existing document with field a = 1 and update
payload with entries a = 5 and a.b = 7, the code applies the plain key
first and the dotted key second, yielding a = an object with b = 7; the
order stated by the claim (dotted first, then the shallow merge of the
rest) would yield a = 5.  The two orders disagree, so the claim as stated
is false of the code. -/
theorem c5_counterexample :
    mergeUpdate [("a", .vNum 1)] [("a", .vNum 5), ("a.b", .vNum 7)] =
      some [("a", .vObj [("b", .vNum 7)])] ∧
    mergeUpdateSpecOrdered [("a", .vNum 1)] [("a", .vNum 5), ("a.b", .vNum 7)] =
      some [("a", .vNum 5)] ∧
    mergeUpdate [("a", .vNum 1)] [("a", .vNum 5), ("a.b", .vNum 7)] ≠
      mergeUpdateSpecOrdered [("a", .vNum 1)] [("a", .vNum 5), ("a.b", .vNum 7)] := by
  refine ⟨rfl, rfl, ?_⟩
  intro h
  rw [show mergeUpdate [("a", .vNum 1)] [("a", .vNum 5), ("a.b", .vNum 7)] =
      some [("a", .vObj [("b", .vNum 7)])] from rfl,
    show mergeUpdateSpecOrdered [("a", .vNum 1)] [("a", .vNum 5), ("a.b", .vNum 7)] =
      some [("a", .vNum 5)] from rfl] at h
  exact absurd h (by simp)

/-- A dot in the middle makes the concatenated key a dotted key. -/
theorem hasDot_append_dot (k sub : String) : hasDot (k ++ "." ++ sub) = true := by
  unfold hasDot
  rw [String.data_append, String.data_append, List.append_assoc]
  simp [show ("." : String).data = ['.'] from rfl]

/-- Splitting a dot-free head, a dot, and a dot-free tail yields the two
segments. -/
theorem jsSplit_append_dot (k sub : String) (hk : k.data.contains '.' = false)
    (hsub : sub.data.contains '.' = false) :
    jsSplit (k ++ "." ++ sub) '.' = [k, sub] := by
  unfold jsSplit
  have hdata : (k ++ "." ++ sub).data = k.data ++ '.' :: sub.data := by
    rw [String.data_append, String.data_append, List.append_assoc]
    rfl
  rw [hdata, splitChars_append, splitChars_of_not_contains '.' k.data hk,
    splitChars_of_not_contains '.' sub.data hsub]
  rfl

/-- C5 amended: the merge of update applies the non-dotted keys of the
payload as a shallow merge over the existing document first and then each
dot-delimited key as a nested path creating intermediate objects as needed
(excluded from the shallow merge; a dotted write wins over a plain key on
the same top-level field); with no existing document the payload is written
as-is; and writing one dotted key k.sub below an existing nested object
updates only the sub field of that object, so untouched sibling fields
survive. -/
theorem c5_update_dot_path_merge :
    (∀ ex d, updateMergedData (some ex) d = mergeUpdateAmended ex d) ∧
    (∀ d, updateMergedData none d = some d) ∧
    (∀ (ex m : JSObj) (k sub : String) (v : JSValue),
      hasDot k = false → hasDot sub = false →
      jsGet ex k = some (.vObj m) →
      mergeUpdate ex [(k ++ "." ++ sub, v)] =
        some (jsSet ex k (.vObj (jsSet m sub v)))) := by
  refine ⟨?_, fun d => rfl, ?_⟩
  · intro ex d
    show mergeUpdate ex d = mergeUpdateAmended ex d
    unfold mergeUpdate mergeUpdateAmended
    by_cases h : ((d.map Prod.fst).filter (fun k => hasDot k)).length > 0
    · rw [if_pos h]
      rfl
    · rw [if_neg h]
      have hnil : (d.map Prod.fst).filter (fun k => hasDot k) = [] :=
        List.length_eq_zero.mp (by omega)
      have h0 : ∀ k ∈ d.map Prod.fst, ¬(hasDot k = true) :=
        List.filter_eq_nil_iff.mp hnil
      have h1 : d.filter (fun p => hasDot p.1) = [] := by
        rw [List.filter_eq_nil_iff]
        intro p hp
        exact h0 p.1 (List.mem_map_of_mem Prod.fst hp)
      have h2 : d.filter (fun p => !(hasDot p.1)) = d := by
        rw [List.filter_eq_self]
        intro p hp
        simp [h0 p.1 (List.mem_map_of_mem Prod.fst hp)]
      rw [h1, h2]
      rfl
  · intro ex m k sub v hk hsub hget
    have hdotkey : hasDot (k ++ "." ++ sub) = true := hasDot_append_dot k sub
    simp only [mergeUpdate]
    rw [show List.filter (fun k2 => hasDot k2) (List.map Prod.fst [(k ++ "." ++ sub, v)]) =
      [k ++ "." ++ sub] from by simp [hdotkey]]
    rw [if_pos (by simp)]
    rw [show List.filter (fun p => !(hasDot p.1)) [(k ++ "." ++ sub, v)] = [] from by
      simp [hdotkey]]
    rw [show List.filter (fun p => hasDot p.1) [(k ++ "." ++ sub, v)] =
      [(k ++ "." ++ sub, v)] from by simp [hdotkey]]
    simp only [List.foldl_cons, List.foldl_nil, Option.some_bind]
    rw [jsSplit_append_dot k sub hk hsub]
    unfold setDotPath
    rw [hget]
    unfold setDotPath
    rfl

/-- Witness for C5 amended: updating the existing document
profile = (age = 30, job = Engineer) with the single dotted key
profile.age = 31 yields profile = (age = 31, job = Engineer): the sibling
job survives. -/
theorem c5_update_dot_path_merge_witness :
    hasDot "profile" = false ∧ hasDot "age" = false ∧
    mergeUpdate [("profile", .vObj [("age", .vNum 30), ("job", .vStr "Engineer")])]
        [("profile" ++ "." ++ "age", .vNum 31)] =
      some [("profile", .vObj [("age", .vNum 31), ("job", .vStr "Engineer")])] := by
  refine ⟨rfl, rfl, ?_⟩
  have h := c5_update_dot_path_merge.2.2
    [("profile", .vObj [("age", .vNum 30), ("job", .vStr "Engineer")])]
    [("age", .vNum 30), ("job", .vStr "Engineer")] "profile" "age" (.vNum 31)
    rfl rfl rfl
  simpa using h

/-! Preservation of the attached id through the merge (claim C10). -/

/-- The fold of the dotted-key applications propagates a failed navigation. -/
theorem foldSetDot_none (entries : List (String × JSValue)) :
    entries.foldl
      (fun acc p => acc.bind (fun o => setDotPath o (jsSplit p.1 '.') p.2))
      none = none := by
  induction entries with
  | nil => rfl
  | cons p rest ih => simpa using ih

/-- The split of a string is never the empty segment list. -/
theorem jsSplit_ne_nil (s : String) (sep : Char) : jsSplit s sep ≠ [] := by
  unfold jsSplit
  intro h
  exact splitChars_ne_nil sep s.data (List.map_eq_nil_iff.mp h)

/-- Applying one dotted path whose first segment differs from a key leaves
that key unchanged at the top level. -/
theorem setDotPath_preserve_top (o o2 : JSObj) (parts : List String) (v : JSValue)
    (k : String) (hne : parts.headD "" ≠ k) (hparts : parts ≠ [])
    (h : setDotPath o parts v = some o2) :
    jsGet o2 k = jsGet o k := by
  match parts with
  | [] => exact absurd rfl hparts
  | [k1] =>
    have hk1 : k1 ≠ k := hne
    unfold setDotPath at h
    cases h
    exact jsGet_jsSet_ne o k1 k v (Ne.symm hk1)
  | k1 :: k2 :: rest =>
    have hk1 : k1 ≠ k := hne
    unfold setDotPath at h
    split at h
    · cases hs : setDotPath _ (k2 :: rest) v with
      | none => rw [hs] at h; simp at h
      | some m2 =>
        rw [hs] at h
        simp only [Option.map_some'] at h
        cases h
        exact jsGet_jsSet_ne o k1 k _ (Ne.symm hk1)
    · exact absurd h (by simp)
    · exact absurd h (by simp)
    · cases hs : setDotPath ([] : JSObj) (k2 :: rest) v with
      | none => rw [hs] at h; simp at h
      | some m2 =>
        rw [hs] at h
        simp only [Option.map_some'] at h
        cases h
        exact jsGet_jsSet_ne o k1 k _ (Ne.symm hk1)

/-- Folding dotted-key applications none of whose first segments equal a
key leaves that key unchanged. -/
theorem foldSetDot_preserve (entries : List (String × JSValue)) (k : String)
    (h : ∀ p ∈ entries, (jsSplit p.1 '.').headD "" ≠ k) :
    ∀ o o2, entries.foldl
        (fun acc p => acc.bind (fun o => setDotPath o (jsSplit p.1 '.') p.2))
        (some o) = some o2 →
      jsGet o2 k = jsGet o k := by
  induction entries with
  | nil =>
    intro o o2 hf
    cases hf
    rfl
  | cons p rest ih =>
    intro o o2 hf
    simp only [List.foldl_cons, Option.some_bind] at hf
    cases hs : setDotPath o (jsSplit p.1 '.') p.2 with
    | none =>
      rw [hs] at hf
      rw [foldSetDot_none rest] at hf
      cases hf
    | some o1 =>
      rw [hs] at hf
      have h1 := ih (fun q hq => h q (by simp [hq])) o1 o2 hf
      have h2 := setDotPath_preserve_top o o1 (jsSplit p.1 '.') p.2 k
        (h p (by simp)) (jsSplit_ne_nil p.1 '.') hs
      rw [h1, h2]

/-- The decoded document read back before an update carries the attached id
field holding the trailing segment of the resource name. -/
theorem convertFromFirestoreDocument_id (resp : FirestoreResponse) :
    jsGet (convertFromFirestoreDocument resp) "id" =
      some (.vStr (getDocumentId resp.name)) := by
  unfold convertFromFirestoreDocument
  cases resp.fields with
  | none => rfl
  | some flds => exact jsGet_jsSet_self _ "id" _

/-- C10 counterexample: the update payload with the single dotted key id.x
contains no key named id, yet navigating the dotted path replaces the
attached id field (a string, hence not an object) by a fresh object, so the
encoded payload id field is a map value, not the document identifier. -/
theorem c10_counterexample :
    ([(("id.x" : String), JSValue.vNum 7)].all (fun p => p.1 != "id")) = true ∧
    updateMergedData
        (some (convertFromFirestoreDocument ⟨"todos/d1", some []⟩))
        [("id.x", .vNum 7)] =
      some [("id", .vObj [("x", .vNum 7)])] ∧
    jsGet (convertToFirestoreDocument [("id", .vObj [("x", .vNum 7)])]) "id" ≠
      some (.stringValue (getDocumentId "todos/d1")) := by
  refine ⟨rfl, rfl, ?_⟩
  intro h
  rw [show jsGet (convertToFirestoreDocument [("id", JSValue.vObj [("x", JSValue.vNum 7)])]) "id" =
      some (.mapValue [("x", .integerValue 7)]) from rfl,
    show getDocumentId "todos/d1" = "d1" from rfl] at h
  exact absurd h (by simp)

/-- C10 amended: for every update on a found existing document whose
payload has no key named id and no dotted key whose first segment is id,
the encoded payload sent to the store carries the field id holding the
document identifier taken from the resource name, because the decoded
existing document carries the attached id and both merge branches preserve
it. -/
theorem c10_update_preserves_id (resp : FirestoreResponse) (d m : JSObj)
    (hkeys : ∀ p ∈ d, p.1 ≠ "id" ∧ (jsSplit p.1 '.').headD "" ≠ "id")
    (hm : updateMergedData (some (convertFromFirestoreDocument resp)) d = some m) :
    jsGet (convertToFirestoreDocument m) "id" =
      some (.stringValue (getDocumentId resp.name)) := by
  have hid : jsGet m "id" = some (.vStr (getDocumentId resp.name)) := by
    show jsGet m "id" = _
    have hm2 : mergeUpdate (convertFromFirestoreDocument resp) d = some m := hm
    unfold mergeUpdate at hm2
    by_cases hdot : ((d.map Prod.fst).filter (fun k => hasDot k)).length > 0
    · rw [if_pos hdot] at hm2
      have h1 := foldSetDot_preserve (d.filter (fun p => hasDot p.1)) "id"
        (fun p hp => (hkeys p (List.mem_of_mem_filter hp)).2) _ _ hm2
      have h2 := jsGet_jsMerge_of_not_mem (d.filter (fun p => !(hasDot p.1)))
        (convertFromFirestoreDocument resp) "id"
        (fun p hp => (hkeys p (List.mem_of_mem_filter hp)).1)
      rw [h1]
      rw [show (d.filter (fun p => !(hasDot p.1))).foldl
          (fun acc p => jsSet acc p.1 p.2) (convertFromFirestoreDocument resp) =
        jsMerge (convertFromFirestoreDocument resp)
          (d.filter (fun p => !(hasDot p.1))) from rfl]
      rw [h2, convertFromFirestoreDocument_id]
    · rw [if_neg hdot] at hm2
      cases hm2
      rw [jsGet_jsMerge_of_not_mem d _ "id" (fun p hp => (hkeys p hp).1),
        convertFromFirestoreDocument_id]
  unfold convertToFirestoreDocument
  rw [convertToFirestoreValueFields_eq_map, jsGet_map_value, hid]
  rfl

/-- Witness for C10 amended: updating the existing document at resource
name todos/d1 with the plain payload name = x keeps id = d1 in the encoded
payload. -/
theorem c10_update_preserves_id_witness :
    jsGet (convertToFirestoreDocument
        ((updateMergedData
          (some (convertFromFirestoreDocument ⟨"todos/d1", some []⟩))
          [("name", .vStr "x")]).getD [])) "id" =
      some (.stringValue (getDocumentId "todos/d1")) := by
  have h := c10_update_preserves_id ⟨"todos/d1", some []⟩ [("name", .vStr "x")]
    [("id", .vStr "d1"), ("name", .vStr "x")]
    (by
      intro p hp
      simp only [List.mem_singleton] at hp
      subst hp
      exact ⟨by decide, by decide⟩)
    rfl
  simpa using h

/-! The query compiler of FirestoreClient.query (client.ts). -/

/-- One ergonomic filter triple held in query constraints. -/
structure WhereFilter where
  field : String
  op : String
  value : JSValue

/-- The options record passed to FirestoreClient.query; an absent where
array is modelled as the empty list (both fail the truthiness-and-length
guard). -/
structure QueryOptions where
  whereFilters : List WhereFilter := []
  orderBy : Option String := none
  orderDirection : Option String := none
  limit : Option ℚ := none
  offset : Option ℚ := none

/-- A compiled field filter node of the structured query. -/
structure FieldFilterNode where
  fieldPath : String
  op : String
  value : FirestoreFieldValue

/-- The where section of a compiled structured query: either one bare field
filter, or a composite filter with an operator wrapping field-filter
nodes. -/
inductive WhereClause where
  | fieldFilter : FieldFilterNode → WhereClause
  | compositeFilter : String → List FieldFilterNode → WhereClause

/-- One compiled orderBy entry. -/
structure OrderBySpec where
  field : String
  direction : String

/-- The compiled structured-query payload. -/
structure StructuredQuery where
  collectionId : String
  allDescendants : Bool
  whereClause : Option WhereClause
  orderBy : Option OrderBySpec
  limit : Option ℚ
  offset : Option ℚ

/-- The operator map of FirestoreClient.query (opMap). -/
def opMapPairs : List (String × String) :=
  [("==", "EQUAL"), ("!=", "NOT_EQUAL"), ("<", "LESS_THAN"),
    ("<=", "LESS_THAN_OR_EQUAL"), (">", "GREATER_THAN"),
    (">=", "GREATER_THAN_OR_EQUAL"), ("array-contains", "ARRAY_CONTAINS"),
    ("in", "IN"), ("array-contains-any", "ARRAY_CONTAINS_ANY"),
    ("not-in", "NOT_IN")]

/-- The expression opMap of filter.op, or filter.op when the lookup misses
(every mapped wire token is a nonempty, hence truthy, string). -/
def opMapLookup (op : String) : String :=
  match opMapPairs.find? (fun p => p.1 == op) with
  | some p => p.2
  | none => op

/-- JS truthiness of the optional numeric limit and offset options: absent
and zero are both falsy. -/
def jsTruthyNum : Option ℚ → Bool
  | none => false
  | some q => q != 0

/-- JS truthiness of the optional orderBy string: absent and empty are
falsy. -/
def jsTruthyStr : Option String → Bool
  | none => false
  | some s => s ≠ ""

/-- The expression options.orderDirection || ASCENDING. -/
def orderDirectionOrAscending : Option String → String
  | none => "ASCENDING"
  | some s => if s = "" then "ASCENDING" else s

/-- Compile one filter into its field-filter node. -/
def compileFilter (f : WhereFilter) : FieldFilterNode :=
  ⟨f.field, opMapLookup f.op, convertToFirestoreValue f.value⟩

/-- The structured-query construction of FirestoreClient.query: the
collection id is the trailing segment of the collection path; zero filters
leave the where key absent, one filter compiles to a bare field filter, two
or more compile to a composite AND filter; orderBy, limit and offset are
attached when truthy. -/
def compileQuery (collectionPath : String) (options : QueryOptions)
    (allDescendants : Bool) : StructuredQuery :=
  { collectionId := (jsSplit collectionPath '/').getLastD ""
    allDescendants := allDescendants
    whereClause :=
      match options.whereFilters with
      | [] => none
      | [f] => some (.fieldFilter (compileFilter f))
      | fs => some (.compositeFilter "AND" (fs.map compileFilter))
    orderBy :=
      if jsTruthyStr options.orderBy then
        some ⟨(options.orderBy).getD "", orderDirectionOrAscending options.orderDirection⟩
      else none
    limit := if jsTruthyNum options.limit then options.limit else none
    offset := if jsTruthyNum options.offset then options.offset else none }

/-- C3: compiling a query emits no where key with zero filters, exactly one
bare field-filter node with one filter, and a composite AND filter with one
field-filter node per input filter with two or more; each ergonomic
operator maps to its wire token, an operator outside the mapped set passes
through unchanged, and each filter value is encoded through the value
codec. -/
theorem c3_query_compiler (path : String) (opts : QueryOptions) (desc : Bool) :
    (opts.whereFilters = [] → (compileQuery path opts desc).whereClause = none) ∧
    (∀ f, opts.whereFilters = [f] → (compileQuery path opts desc).whereClause =
      some (.fieldFilter ⟨f.field, opMapLookup f.op, convertToFirestoreValue f.value⟩)) ∧
    (2 ≤ opts.whereFilters.length → (compileQuery path opts desc).whereClause =
      some (.compositeFilter "AND" (opts.whereFilters.map
        (fun f => ⟨f.field, opMapLookup f.op, convertToFirestoreValue f.value⟩)))) ∧
    (opMapLookup "==" = "EQUAL" ∧ opMapLookup "!=" = "NOT_EQUAL" ∧
      opMapLookup "<" = "LESS_THAN" ∧ opMapLookup "<=" = "LESS_THAN_OR_EQUAL" ∧
      opMapLookup ">" = "GREATER_THAN" ∧ opMapLookup ">=" = "GREATER_THAN_OR_EQUAL" ∧
      opMapLookup "array-contains" = "ARRAY_CONTAINS" ∧ opMapLookup "in" = "IN" ∧
      opMapLookup "array-contains-any" = "ARRAY_CONTAINS_ANY" ∧
      opMapLookup "not-in" = "NOT_IN") ∧
    (∀ op2, op2 ∉ opMapPairs.map Prod.fst → opMapLookup op2 = op2) := by
  refine ⟨?_, ?_, ?_, ⟨rfl, rfl, rfl, rfl, rfl, rfl, rfl, rfl, rfl, rfl⟩, ?_⟩
  · intro h
    simp [compileQuery, h]
  · intro f h
    simp [compileQuery, h, compileFilter]
  · intro h
    match hw : opts.whereFilters with
    | [] => rw [hw] at h; simp at h
    | [f] => rw [hw] at h; simp at h
    | f1 :: f2 :: fs =>
      simp [compileQuery, hw, compileFilter]
  · intro op2 hmiss
    unfold opMapLookup
    have hne : ∀ p ∈ opMapPairs, ¬(p.1 == op2) = true := by
      intro p hp hbeq
      have hmem : p.1 ∈ opMapPairs.map Prod.fst := List.mem_map_of_mem Prod.fst hp
      rw [eq_of_beq hbeq] at hmem
      exact hmiss hmem
    rw [List.find?_eq_none.mpr hne]

/-- Witness for C3: an empty constraint set omits where; the single filter
price >= 100 compiles to one bare field filter with the mapped wire
operator and the encoded value; two filters compile to a composite AND
filter; the unknown operator passes through. -/
theorem c3_query_compiler_witness :
    (compileQuery "items" {} false).whereClause = none ∧
    (compileQuery "items" { whereFilters := [⟨"price", ">=", .vNum 100⟩] } false).whereClause =
      some (.fieldFilter ⟨"price", opMapLookup ">=", convertToFirestoreValue (.vNum 100)⟩) ∧
    (compileQuery "items"
        { whereFilters := [⟨"price", ">=", .vNum 100⟩, ⟨"cat", "==", .vStr "A"⟩] }
        false).whereClause =
      some (.compositeFilter "AND"
        (([⟨"price", ">=", JSValue.vNum 100⟩, ⟨"cat", "==", JSValue.vStr "A"⟩] :
            List WhereFilter).map
          (fun f => ⟨f.field, opMapLookup f.op, convertToFirestoreValue f.value⟩))) ∧
    opMapLookup "future-op" = "future-op" :=
  ⟨(c3_query_compiler "items" {} false).1 rfl,
    (c3_query_compiler "items" { whereFilters := [⟨"price", ">=", .vNum 100⟩] } false).2.1
      ⟨"price", ">=", .vNum 100⟩ rfl,
    (c3_query_compiler "items"
      { whereFilters := [⟨"price", ">=", .vNum 100⟩, ⟨"cat", "==", .vStr "A"⟩] } false).2.2.1
      (by decide),
    (c3_query_compiler "items" {} false).2.2.2.2 "future-op" (by decide)⟩

/-! The reference-graph chaining state (client.ts CollectionReference,
CollectionGroup and Query).  In JS the constraints record holds a reference
to a filter array; the object spread in each chaining call copies the
scalar fields and the array reference, not the array.  The model therefore
stores filter arrays in heap cells and a constraints record holds the index
of its cell. -/

/-- The mutable store of filter arrays: cell i is the array allocated
i-th. -/
structure QueryHeap where
  cells : List (List WhereFilter)

/-- Read a filter array. -/
def QueryHeap.getCell (h : QueryHeap) (i : Nat) : List WhereFilter :=
  h.cells.getD i []

/-- Overwrite a filter array in place. -/
def QueryHeap.setCell (h : QueryHeap) (i : Nat) (l : List WhereFilter) : QueryHeap :=
  ⟨h.cells.set i l⟩

/-- The constraints record of a reference or query: the where field is the
heap cell of its filter array; the remaining fields are scalars. -/
structure QueryConstraints where
  whereCell : Nat
  orderBy : Option String := none
  orderDirection : Option String := none
  limit : Option ℚ := none
  offset : Option ℚ := none

/-- A Query node: collection path, constraints, collection-group flag. -/
structure Query where
  collectionPath : String
  constraints : QueryConstraints
  allDescendants : Bool

/-- A CollectionReference: its constructor allocates a fresh empty filter
array (the record with where set to an empty array literal). -/
structure CollectionReference where
  path : String
  constraints : QueryConstraints

/-- The operator-conversion switch shared verbatim by the where methods of
CollectionReference, CollectionGroup and Query. -/
def whereOpSwitch (opStr : String) : String :=
  match opStr with
  | "==" => "EQUAL"
  | "!=" => "NOT_EQUAL"
  | "<" => "LESS_THAN"
  | "<=" => "LESS_THAN_OR_EQUAL"
  | ">" => "GREATER_THAN"
  | ">=" => "GREATER_THAN_OR_EQUAL"
  | "array-contains" => "ARRAY_CONTAINS"
  | "in" => "IN"
  | "array-contains-any" => "ARRAY_CONTAINS_ANY"
  | "not-in" => "NOT_IN"
  | _ => opStr

/-- Query.where: construct the new Query with a spread copy of the
constraints (the scalar fields are copied, the where field still names the
same heap cell) and push the converted filter onto that shared array. -/
def Query.whereCall (h : QueryHeap) (q : Query) (fieldPath opStr : String)
    (value : JSValue) : QueryHeap × Query :=
  let q2 : Query :=
    { collectionPath := q.collectionPath
      constraints := q.constraints
      allDescendants := q.allDescendants }
  let h2 := h.setCell q2.constraints.whereCell
    (h.getCell q2.constraints.whereCell ++ [⟨fieldPath, whereOpSwitch opStr, value⟩])
  (h2, q2)

/-- Query.orderBy: the new Query gets the spread copy (same where cell) and
then its own orderBy and orderDirection scalars are assigned, which only
touches the fresh constraints record. -/
def Query.orderByCall (h : QueryHeap) (q : Query) (fieldPath : String)
    (directionStr : String) : QueryHeap × Query :=
  let q2 : Query :=
    { collectionPath := q.collectionPath
      constraints :=
        { q.constraints with
          orderBy := some fieldPath
          orderDirection := some (if directionStr = "asc" then "ASCENDING" else "DESCENDING") }
      allDescendants := q.allDescendants }
  (h, q2)

/-- CollectionReference.where: same body as Query.where with this
collection path, allDescendants false and the spread copy of this
reference's constraints (sharing its filter array cell). -/
def CollectionReference.whereCall (h : QueryHeap) (c : CollectionReference)
    (fieldPath opStr : String) (value : JSValue) : QueryHeap × Query :=
  let q2 : Query :=
    { collectionPath := c.path
      constraints := c.constraints
      allDescendants := false }
  let h2 := h.setCell q2.constraints.whereCell
    (h.getCell q2.constraints.whereCell ++ [⟨fieldPath, whereOpSwitch opStr, value⟩])
  (h2, q2)

/-- C2 evaluated at the failing input: take a freshly constructed
CollectionReference c with its empty filter array in cell 0, and the Query
q1 seeded from it.  Calling where on q1 returns a new Query value, but the
filter array reachable from the receiver q1 has gained the pushed triple:
the filter list of q1 is NOT unchanged, and the collection reference c is
mutated the same way by its own where call.  The orderBy call, by contrast,
leaves the receiver constraints untouched. -/
theorem c2_where_mutates_receiver :
    (let h0 : QueryHeap := ⟨[[]]⟩
     let q1 : Query := ⟨"users", ⟨0, none, none, none, none⟩, false⟩
     let r := Query.whereCall h0 q1 "age" ">" (.vNum 20)
     r.fst.getCell q1.constraints.whereCell = [⟨"age", "GREATER_THAN", .vNum 20⟩] ∧
       h0.getCell q1.constraints.whereCell = [] ∧
       r.fst.getCell q1.constraints.whereCell ≠ h0.getCell q1.constraints.whereCell) ∧
    (let h0 : QueryHeap := ⟨[[]]⟩
     let c : CollectionReference := ⟨"users", ⟨0, none, none, none, none⟩⟩
     let r := CollectionReference.whereCall h0 c "age" ">" (.vNum 20)
     r.fst.getCell c.constraints.whereCell ≠ h0.getCell c.constraints.whereCell) ∧
    (let h0 : QueryHeap := ⟨[[]]⟩
     let q1 : Query := ⟨"users", ⟨0, none, none, none, none⟩, false⟩
     let r := Query.orderByCall h0 q1 "age" "asc"
     r.fst.getCell q1.constraints.whereCell = h0.getCell q1.constraints.whereCell ∧
       r.snd.constraints.orderBy = some "age") := by
  refine ⟨⟨rfl, rfl, ?_⟩, ?_, ⟨rfl, rfl⟩⟩
  · show (Query.whereCall ⟨[[]]⟩ ⟨"users", ⟨0, none, none, none, none⟩, false⟩
        "age" ">" (.vNum 20)).fst.getCell 0 ≠ QueryHeap.getCell ⟨[[]]⟩ 0
    intro h
    rw [show (Query.whereCall ⟨[[]]⟩ ⟨"users", ⟨0, none, none, none, none⟩, false⟩
        "age" ">" (.vNum 20)).fst.getCell 0 = [⟨"age", "GREATER_THAN", .vNum 20⟩] from rfl,
      show QueryHeap.getCell ⟨[[]]⟩ 0 = [] from rfl] at h
    exact absurd h (by simp)
  · show (CollectionReference.whereCall ⟨[[]]⟩ ⟨"users", ⟨0, none, none, none, none⟩⟩
        "age" ">" (.vNum 20)).fst.getCell 0 ≠ QueryHeap.getCell ⟨[[]]⟩ 0
    intro h
    rw [show (CollectionReference.whereCall ⟨[[]]⟩ ⟨"users", ⟨0, none, none, none, none⟩⟩
        "age" ">" (.vNum 20)).fst.getCell 0 = [⟨"age", "GREATER_THAN", .vNum 20⟩] from rfl,
      show QueryHeap.getCell ⟨[[]]⟩ 0 = [] from rfl] at h
    exact absurd h (by simp)

end Firestore
